import Mathlib

/-!
Shallow embedding of the `agentauth` core (identity, delegation, AAT token)
and of its middleware constraint-enforcement layer, together with proofs
settling the specification claims about them.

Conventions of the embedding:
* TypeScript strings whose character structure matters are `List Char`
  (the token wire string, hex and duration inputs); payload-level strings
  are Lean `String`.
* Byte buffers (`Uint8Array` / Node `Buffer`) are `List Nat`, each entry
  a byte value `< 256`.
* The Ed25519 primitive of the `@noble/ed25519` dependency is an abstract
  `SigScheme` parameter; theorems that need its correctness state it as a
  hypothesis, and witnesses instantiate it with a concrete executable
  scheme.
* `JSON.stringify` / `JSON.parse` of the three token segments are an
  abstract `Codecs` parameter (an encode function and a partial decode
  function per segment type); theorems assume the round trip only at the
  values they mention.
* Node `Buffer` encodings (`base64url`, `hex`, `utf8`) are embedded
  concretely, including their lenient / lossy behaviour, since several
  claims turn on exactly that behaviour.
-/

set_option maxRecDepth 100000

namespace AgentAuth

/-! ## JavaScript `String.prototype.split` with a one-character separator -/

/-- Core of `split`: returns the first field and the remaining fields of
splitting the character list at every occurrence of `sep`. -/
def splitOnCharCore (sep : Char) : List Char → List Char × List (List Char)
  | [] => ([], [])
  | c :: cs =>
    let r := splitOnCharCore sep cs
    if c = sep then ([], r.1 :: r.2) else (c :: r.1, r.2)

/-- JavaScript `str.split(sep)` for a single-character separator: the result
always has at least one field, and `"".split(sep) = [""]`. -/
def splitOnChar (sep : Char) (l : List Char) : List (List Char) :=
  (splitOnCharCore sep l).1 :: (splitOnCharCore sep l).2

/-! ## Node `Buffer` base64url encoding (no padding, lenient decoding) -/

/-- The base64url alphabet, in value order. -/
def b64Alphabet : List Char :=
  ("ABCDEFGHIJKLMNOPQRSTUVWXYZabcdefghijklmnopqrstuvwxyz0123456789-_").data

/-- Character of a six-bit value. -/
def sextetChar (n : Nat) : Char := b64Alphabet.getD n 'A'

/-- Six-bit value of an alphabet character; `none` for characters outside
the alphabet (Node silently skips those while decoding). -/
def charSextet (c : Char) : Option Nat :=
  let i := b64Alphabet.indexOf c
  if i < 64 then some i else none

/-- `Buffer.prototype.toString('base64url')`: emit four characters per
three bytes, three characters for two trailing bytes, two for one. -/
def b64encode : List Nat → List Char
  | b0 :: b1 :: b2 :: rest =>
    sextetChar (b0 / 4) :: sextetChar (b0 % 4 * 16 + b1 / 16) ::
      sextetChar (b1 % 16 * 4 + b2 / 64) :: sextetChar (b2 % 64) :: b64encode rest
  | [b0, b1] =>
    [sextetChar (b0 / 4), sextetChar (b0 % 4 * 16 + b1 / 16), sextetChar (b1 % 16 * 4)]
  | [b0] => [sextetChar (b0 / 4), sextetChar (b0 % 4 * 16)]
  | [] => []

/-- Decode a list of six-bit values to bytes: three bytes per group of
four, two bytes for three trailing values, one for two, none for one. -/
def b64decodeSextets : List Nat → List Nat
  | s0 :: s1 :: s2 :: s3 :: rest =>
    (s0 * 4 + s1 / 16) :: (s1 % 16 * 16 + s2 / 4) :: (s2 % 4 * 64 + s3) ::
      b64decodeSextets rest
  | [s0, s1, s2] => [s0 * 4 + s1 / 16, s1 % 16 * 16 + s2 / 4]
  | [s0, s1] => [s0 * 4 + s1 / 16]
  | _ => []

/-- `Buffer.from(str, 'base64url')`: characters outside the alphabet are
skipped, then complete groups are decoded; never fails. -/
def b64decode (l : List Char) : List Nat :=
  b64decodeSextets (l.filterMap charSextet)

/-! ## Node `Buffer` UTF-8 decoding (WHATWG, lossy) and encoding

`token.ts` recovers the raw signature bytes with
`Buffer.from(base64urlDecode(signatureB64), 'utf8')`, i.e. it decodes the
bytes as a UTF-8 string (invalid sequences become U+FFFD) and re-encodes
that string.  `utf8RoundTrip` embeds that byte-level composite; it is the
identity exactly on valid UTF-8 byte lists. -/

/-- Decode a byte list to a list of Unicode code points the way V8's
`buffer.toString('utf8')` does: maximal valid sequences are decoded, and
an invalid lead or continuation byte yields U+FFFD, resuming at the next
undecoded byte.  The fuel argument (always at least the list length at
the call sites) only makes the recursion structural. -/
def utf8DecodeAux : Nat → List Nat → List Nat
  | _, [] => []
  | 0, _ :: _ => []
  | fuel + 1, b :: rest =>
    if b < 128 then b :: utf8DecodeAux fuel rest
    else if 194 ≤ b ∧ b ≤ 223 then
      match rest with
      | c :: rest2 =>
        if 128 ≤ c ∧ c ≤ 191 then ((b - 192) * 64 + (c - 128)) :: utf8DecodeAux fuel rest2
        else 65533 :: utf8DecodeAux fuel (c :: rest2)
      | [] => [65533]
    else if 224 ≤ b ∧ b ≤ 239 then
      match rest with
      | c :: rest2 =>
        if (if b = 224 then 160 ≤ c ∧ c ≤ 191
            else if b = 237 then 128 ≤ c ∧ c ≤ 159
            else 128 ≤ c ∧ c ≤ 191) then
          match rest2 with
          | d :: rest3 =>
            if 128 ≤ d ∧ d ≤ 191 then
              ((b - 224) * 4096 + (c - 128) * 64 + (d - 128)) :: utf8DecodeAux fuel rest3
            else 65533 :: utf8DecodeAux fuel (d :: rest3)
          | [] => [65533]
        else 65533 :: utf8DecodeAux fuel (c :: rest2)
      | [] => [65533]
    else if 240 ≤ b ∧ b ≤ 244 then
      match rest with
      | c :: rest2 =>
        if (if b = 240 then 144 ≤ c ∧ c ≤ 191
            else if b = 244 then 128 ≤ c ∧ c ≤ 143
            else 128 ≤ c ∧ c ≤ 191) then
          match rest2 with
          | d :: rest3 =>
            if 128 ≤ d ∧ d ≤ 191 then
              match rest3 with
              | e :: rest4 =>
                if 128 ≤ e ∧ e ≤ 191 then
                  ((b - 240) * 262144 + (c - 128) * 4096 + (d - 128) * 64 + (e - 128)) ::
                    utf8DecodeAux fuel rest4
                else 65533 :: utf8DecodeAux fuel (e :: rest4)
              | [] => [65533]
            else 65533 :: utf8DecodeAux fuel (d :: rest3)
          | [] => [65533]
        else 65533 :: utf8DecodeAux fuel (c :: rest2)
      | [] => [65533]
    else 65533 :: utf8DecodeAux fuel rest

/-- `buffer.toString('utf8')` as a code-point list. -/
def utf8DecodeCps (l : List Nat) : List Nat := utf8DecodeAux l.length l

/-- Encode one code point as UTF-8 bytes. -/
def utf8EncodeCp (c : Nat) : List Nat :=
  if c < 128 then [c]
  else if c < 2048 then [192 + c / 64, 128 + c % 64]
  else if c < 65536 then [224 + c / 4096, 128 + c / 64 % 64, 128 + c % 64]
  else [240 + c / 262144, 128 + c / 4096 % 64, 128 + c / 64 % 64, 128 + c % 64]

/-- Encode a list of code points (`Buffer.from(str, 'utf8')`). -/
def utf8EncodeCps (l : List Nat) : List Nat := (l.map utf8EncodeCp).flatten

/-- The byte-level effect of `Buffer.from(buf.toString('utf8'), 'utf8')`. -/
def utf8RoundTrip (l : List Nat) : List Nat := utf8EncodeCps (utf8DecodeCps l)

/-! ## Node `Buffer` hex encoding and lenient hex decoding -/

/-- Value of a hexadecimal digit character, upper or lower case. -/
def hexVal (c : Char) : Option Nat :=
  if '0' ≤ c ∧ c ≤ '9' then some (c.toNat - 48)
  else if 'a' ≤ c ∧ c ≤ 'f' then some (c.toNat - 87)
  else if 'A' ≤ c ∧ c ≤ 'F' then some (c.toNat - 55)
  else none

/-- Lower-case hex digit of a value below 16. -/
def hexDigit (n : Nat) : Char := "0123456789abcdef".data.getD n '0'

/-- `Buffer.prototype.toString('hex')`: two lower-case digits per byte. -/
def hexEncode : List Nat → List Char
  | [] => []
  | b :: rest => hexDigit (b / 16) :: hexDigit (b % 16) :: hexEncode rest

/-- `Buffer.from(str, 'hex')`: Node decodes digit pairs from the left and
stops (without failing) at the first pair containing a non-hex character;
a dangling final character is dropped. -/
def hexDecodeLenient : List Char → List Nat
  | a :: b :: rest =>
    match hexVal a, hexVal b with
    | some x, some y => (x * 16 + y) :: hexDecodeLenient rest
    | _, _ => []
  | _ => []

/-! ## identity.ts — DID encoding and the agent identity -/

/-- `AgentIdentity.publicKeyToDID`: base64url-encode the public key and
prefix the method tags (`did:agentauth:ed25519:<base64url>`). -/
def publicKeyToDID (pk : List Nat) : String :=
  String.mk ("did:agentauth:ed25519:".data ++ b64encode pk)

/-- `AgentIdentity.didToPublicKey`: split on `:`; require exactly four
segments tagged `did`, `agentauth`, `ed25519`, else fail (the source throws
`Invalid AgentAuth DID format`, embedded as `none`); decode the fourth
segment with the lenient base64url decoder. -/
def didToPublicKey (did : String) : Option (List Nat) :=
  match splitOnChar ':' did.data with
  | [p0, p1, p2, p3] =>
    if p0 = "did".data ∧ p1 = "agentauth".data ∧ p2 = "ed25519".data then
      some (b64decode p3)
    else none
  | _ => none

/-- The Ed25519 primitive of `@noble/ed25519`, kept abstract: public-key
derivation, `sign(data, privateKey)` and `verify(signature, message,
publicKey)`. -/
structure SigScheme where
  pubOf : List Nat → List Nat
  sign : List Nat → List Nat → List Nat
  verify : List Nat → List Nat → List Nat → Bool

/-- Free-form identity metadata (an open key-value bag in the source). -/
abbrev AgentMetadata := List (String × String)

/-- The `AgentIdentity` value: key pair, derived DID, optional metadata. -/
structure AgentIdentityM where
  privateKey : List Nat
  publicKey : List Nat
  did : String
  metadata : Option AgentMetadata
deriving DecidableEq

/-- Identity-layer failure: malformed / wrong-length key material. -/
inductive IdErr where
  | InvalidKeyFormat
deriving DecidableEq

/-- `AgentIdentity.fromPrivateKey`: `Buffer.from(hex, 'hex')` (lenient,
never throws), then the ed25519 library's `getPublicKey`, which rejects a
key whose decoded length is not the scheme's 32-byte secret-key size (the
spec's `InvalidKeyFormat`); on success the public key and DID are derived. -/
def fromPrivateKey (S : SigScheme) (privateKeyHex : List Char)
    (metadata : Option AgentMetadata) : Except IdErr AgentIdentityM :=
  let priv := hexDecodeLenient privateKeyHex
  if priv.length = 32 then
    let pub := S.pubOf priv
    .ok ⟨priv, pub, publicKeyToDID pub, metadata⟩
  else .error .InvalidKeyFormat

/-- `AgentIdentity.verify` (static): recover the public key from the DID
(`none` embeds the throw on a malformed DID), then check the signature. -/
def identityVerify (S : SigScheme) (signature message : List Nat)
    (did : String) : Option Bool :=
  (didToPublicKey did).map (S.verify signature message)

/-- `exportPrivateKey`: hex encoding of the private key. -/
def exportPrivateKey (x : AgentIdentityM) : List Char := hexEncode x.privateKey

/-- The `IdentityJSON` storage record.  `created` is the instant
`toJSON` runs (`new Date().toISOString()`), embedded as its epoch value. -/
structure IdentityJSON where
  did : String
  privateKey : List Char
  publicKey : List Char
  metadata : Option AgentMetadata
  created : Nat
deriving DecidableEq

/-- `AgentIdentity.toJSON`: serialize the identity, stamping `created`
with the current time. -/
def toJSON (x : AgentIdentityM) (now : Nat) : IdentityJSON :=
  ⟨x.did, exportPrivateKey x, hexEncode x.publicKey, x.metadata, now⟩

/-- `AgentIdentity.fromJSON`: delegates to `fromPrivateKey` with the
stored hex key and metadata; the `did`, `publicKey` and `created` fields
of the record are not consulted. -/
def fromJSON (S : SigScheme) (j : IdentityJSON) : Except IdErr AgentIdentityM :=
  fromPrivateKey S j.privateKey j.metadata

/-! ## delegation.ts — the delegation token data model -/

/-- A `timeWindows` entry of the core `TimeWindow` interface (`days`,
`hours`, `tz`).  The extra `winStart` / `winEnd` fields embed the
middleware's untyped accesses `window.start` / `window.end`: those
properties are not declared by the core interface and are absent
(`undefined`, here `none`) on every delegation the core constructs. -/
structure TimeWindowM where
  days : Option (List String) := none
  hours : Option String := none
  tz : Option String := none
  winStart : Option String := none
  winEnd : Option String := none
deriving DecidableEq

/-- The `DelegationConstraints` interface (all fields optional). -/
structure DelegationConstraintsM where
  notBefore : Option String := none
  notAfter : Option String := none
  maxUses : Option Nat := none
  maxUsesPerHour : Option Nat := none
  requireMFA : Option Bool := none
  allowSubdelegation : Option Bool := none
  ipAllowlist : Option (List String) := none
  timeWindows : Option (List TimeWindowM) := none
deriving DecidableEq

/-- The optional revocation descriptor. -/
structure RevocationM where
  endpoint : String
  method : Option String := none
  cacheTTL : Option Nat := none
deriving DecidableEq

/-- The `DelegationToken` interface, flattened.  `expiresAtTop` and
`notBeforeTop` embed the middleware's untyped accesses
`delegation.expiresAt` / `delegation.notBefore`: top-level properties the
core interface does not declare and the core constructor never sets. -/
structure DelegationTokenM where
  id : String
  delegatorId : String
  delegateId : String
  delegatePlatform : Option String := none
  delegateName : Option String := none
  scopeInclude : List String
  scopeAudiences : Option (List String) := none
  constraints : DelegationConstraintsM
  revocation : Option RevocationM := none
  proofType : String
  proofCreated : Nat
  proofVerificationMethod : String
  proofPurpose : String
  proofValue : String
  expiresAtTop : Option Nat := none
  notBeforeTop : Option Nat := none
deriving DecidableEq

/-- Options of `createDelegation`. -/
structure CreateDelegationOptionsM where
  delegatorDID : String
  delegateDID : String
  scopes : List String
  audiences : Option (List String) := none
  platform : Option String := none
  agentName : Option String := none
  constraints : Option DelegationConstraintsM := none
  revocation : Option RevocationM := none
deriving DecidableEq

/-- `createDelegation`: pure constructor; the fresh `crypto.randomUUID()`
and the `new Date().toISOString()` proof timestamp are passed in as the
`uuid` and `createdAt` parameters.  `constraints` defaults to the empty
record (`options.constraints || \x7b\x7d`); no top-level `expiresAt` or
`notBefore` property exists on the result. -/
def createDelegation (opts : CreateDelegationOptionsM) (uuid : String)
    (createdAt : Nat) : DelegationTokenM :=
  { id := "urn:uuid:" ++ uuid
    delegatorId := opts.delegatorDID
    delegateId := opts.delegateDID
    delegatePlatform := opts.platform
    delegateName := opts.agentName
    scopeInclude := opts.scopes
    scopeAudiences := opts.audiences
    constraints := opts.constraints.getD {}
    revocation := opts.revocation
    proofType := "Ed25519Signature2020"
    proofCreated := createdAt
    proofVerificationMethod := opts.delegatorDID ++ "#keys-1"
    proofPurpose := "assertionMethod"
    proofValue := "TODO_IMPLEMENT_SIGNING"
    expiresAtTop := none
    notBeforeTop := none }

/-! ## token.ts — the AAT token -/

/-- Token-layer failure kinds, named as in the spec's error taxonomy
(section 7); each corresponds to one `throw` site of `token.ts` /
`identity.ts`. -/
inductive TokenError where
  | MalformedToken
  | InvalidDIDFormat
  | InvalidSignature
  | TokenExpired
  | AudienceMismatch
  | InsufficientScope
  | InvalidDurationFormat
deriving DecidableEq

/-- The token header (`alg`, `typ`, `kid`). -/
structure TokenHeader where
  alg : String
  typ : String
  kid : String
deriving DecidableEq

/-- The token payload; `actSub` is the `act.sub` sub-claim. -/
structure TokenPayload where
  iss : String
  sub : String
  aud : String
  iat : Nat
  exp : Nat
  nonce : String
  scope : List String
  actSub : String
deriving DecidableEq

/-- The parsed `AATToken` returned by `verify`. -/
structure AATTokenM where
  header : TokenHeader
  payload : TokenPayload
  delegationChain : List DelegationTokenM
  signature : List Nat
deriving DecidableEq

/-- `JSON.stringify` / `JSON.parse` for the three token segments, kept
abstract: an encoder to UTF-8 bytes and a partial decoder per segment
type.  Theorems assume `dec (enc x) = some x` only at the values they
use; `none` embeds a `JSON.parse` throw. -/
structure Codecs where
  encHeader : TokenHeader → List Nat
  decHeader : List Nat → Option TokenHeader
  encPayload : TokenPayload → List Nat
  decPayload : List Nat → Option TokenPayload
  encChain : List DelegationTokenM → List Nat
  decChain : List Nat → Option (List DelegationTokenM)

/-- Options of `AATToken.create`; `expiresIn` and `delegationChain`
default to `'1h'` and `[]` in the destructuring. -/
structure CreateTokenOptionsM where
  identity : AgentIdentityM
  delegator : String
  audience : String
  scopes : List String
  delegationChain : Option (List DelegationTokenM) := none
  expiresIn : Option String := none

/-- Options of `AATToken.verify`. -/
structure VerifyOptionsM where
  audience : Option String := none
  requiredScopes : Option (List String) := none

/-- Decimal value of a digit string (`parseInt(match[1])`). -/
def digitsToNat (ds : List Char) : Nat :=
  ds.foldl (fun a c => a * 10 + (c.toNat - 48)) 0

/-- `parseExpiry`: the regex `^(\d+)([smhd])$` — one or more digits
followed by exactly one unit character — with multipliers s=1, m=60,
h=3600, d=86400; anything else throws (`InvalidDurationFormat`). -/
def parseExpiry (expiry : List Char) : Except TokenError Nat :=
  match expiry.dropWhile Char.isDigit with
  | [u] =>
    if expiry.takeWhile Char.isDigit = [] then .error .InvalidDurationFormat
    else if u = 's' then .ok (digitsToNat (expiry.takeWhile Char.isDigit) * 1)
    else if u = 'm' then .ok (digitsToNat (expiry.takeWhile Char.isDigit) * 60)
    else if u = 'h' then .ok (digitsToNat (expiry.takeWhile Char.isDigit) * 3600)
    else if u = 'd' then .ok (digitsToNat (expiry.takeWhile Char.isDigit) * 86400)
    else .error .InvalidDurationFormat
  | _ => .error .InvalidDurationFormat

/-- The UTF-8 bytes of an ASCII string, as used for the signing input
(`Buffer.from(str, 'utf8')` on the dot-joined base64url segments, which
are ASCII). -/
def asciiBytes (l : List Char) : List Nat := l.map Char.toNat

/-- `AATToken.create`: parse the expiry, build header and payload,
base64url-encode the three JSON segments, sign the UTF-8 bytes of the
dot-joined first three segments, and return the four segments dot-joined.
The current time (seconds) and the random nonce are parameters. -/
def createToken (S : SigScheme) (C : Codecs) (opts : CreateTokenOptionsM)
    (nonce : String) (now : Nat) : Except TokenError (List Char) :=
  match parseExpiry (opts.expiresIn.getD "1h").data with
  | .error e => .error e
  | .ok dur =>
    let exp := now + dur
    let header : TokenHeader := ⟨"EdDSA", "AAT", opts.identity.did ++ "#keys-1"⟩
    let payload : TokenPayload :=
      ⟨opts.identity.did, opts.delegator, opts.audience, now, exp, nonce,
        opts.scopes, opts.identity.did⟩
    let hB := b64encode (C.encHeader header)
    let pB := b64encode (C.encPayload payload)
    let dB := b64encode (C.encChain (opts.delegationChain.getD []))
    let signingInput := hB ++ '.' :: pB ++ '.' :: dB
    let signature := S.sign (asciiBytes signingInput) opts.identity.privateKey
    .ok (hB ++ '.' :: pB ++ '.' :: dB ++ '.' :: b64encode signature)

/-- The audience gate condition `options.audience && payload.aud !==
options.audience`: an absent option — or the falsy empty string — skips
the check. -/
def audienceCheckFails (audOpt : Option String) (aud : String) : Bool :=
  match audOpt with
  | some a => (a != "") && (aud != a)
  | none => false

/-- `AATToken.verify`, the sequential gate of `token.ts`: split on `.`
requiring exactly four segments (`MalformedToken`); base64url-decode and
JSON-parse header, payload and delegation chain (`MalformedToken`);
recover the signature bytes — the source computes
`Buffer.from(base64urlDecode(signatureB64), 'utf8')`, i.e. the raw bytes
pass through the lossy UTF-8 round trip; recover the issuer public key
from `payload.iss` (`InvalidDIDFormat` on a malformed DID) and check the
signature over the re-derived signing input (`InvalidSignature`); then
expiry (`TokenExpired`), then the audience option (`AudienceMismatch`,
skipped for an absent or falsy empty-string audience), then the
required-scopes option (`InsufficientScope` unless every required scope
is a member of `payload.scope` under exact string equality). -/
def verifyToken (S : SigScheme) (C : Codecs) (now : Nat) (opts : VerifyOptionsM)
    (token : List Char) : Except TokenError AATTokenM :=
  match splitOnChar '.' token with
  | [headerB64, payloadB64, delegationB64, signatureB64] =>
    match C.decHeader (utf8RoundTrip (b64decode headerB64)),
        C.decPayload (utf8RoundTrip (b64decode payloadB64)),
        C.decChain (utf8RoundTrip (b64decode delegationB64)) with
    | some header, some payload, some delegationChain =>
      let signature := utf8RoundTrip (b64decode signatureB64)
      let signingInput := asciiBytes (headerB64 ++ '.' :: payloadB64 ++ '.' :: delegationB64)
      match didToPublicKey payload.iss with
      | none => .error .InvalidDIDFormat
      | some pk =>
        if S.verify signature signingInput pk = false then .error .InvalidSignature
        else if payload.exp < now then .error .TokenExpired
        else if audienceCheckFails opts.audience payload.aud then .error .AudienceMismatch
        else match opts.requiredScopes with
          | some req =>
            if req.all (fun s => payload.scope.contains s) = false then
              .error .InsufficientScope
            else .ok ⟨header, payload, delegationChain, signature⟩
          | none => .ok ⟨header, payload, delegationChain, signature⟩
    | _, _, _ => .error .MalformedToken
  | _ => .error .MalformedToken

/-! ## middleware.ts — delegation constraint enforcement -/

/-- Enforcement-layer failure kinds (spec section 7 names); each is one
`throw` site of the middleware's `enforceConstraints`. -/
inductive MwError where
  | DelegationExpired
  | DelegationNotYetValid
  | MFARequired
  | SubdelegationNotAllowed
  | OutsideTimeWindow
  | NoDelegation
deriving DecidableEq

/-- One window's test in the middleware time-window check:
`currentTime >= window.start && currentTime <= window.end` with
JavaScript string comparison; a comparison against an `undefined` bound
is false, so a window lacking `start` or `end` — every window built from
the core `TimeWindow` shape — admits nothing. -/
def timeWindowAdmits (w : TimeWindowM) (currentTime : String) : Bool :=
  match w.winStart, w.winEnd with
  | some s, some e => decide (s ≤ currentTime) && decide (currentTime ≤ e)
  | some _, none => false
  | none, _ => false

/-- The middleware's `enforceConstraints(delegation, token)`.  `nowMs` is
`Date.now()`; `currentTime` is `new Date().toTimeString().slice(0, 5)`
(the server-local `HH:MM` string); `chainLength` is
`token.delegationChain.length`.  The expiry and not-before gates read the
top-level `delegation.expiresAt` / `delegation.notBefore` properties
(absent on core-created delegations; a `0` value is falsy and also
skipped); `maxUses`, `maxUsesPerHour` and `ipAllowlist` are TODO no-ops
in the source. -/
def enforceConstraints (delegation : DelegationTokenM) (chainLength : Nat)
    (nowMs : Nat) (currentTime : String) : Except MwError Unit :=
  let constraints := delegation.constraints
  if (match delegation.expiresAtTop with
      | some e => decide (e ≠ 0) && decide (e < nowMs)
      | none => false) then .error .DelegationExpired
  else if (match delegation.notBeforeTop with
      | some nb => decide (nb ≠ 0) && decide (nowMs < nb)
      | none => false) then .error .DelegationNotYetValid
  else if constraints.requireMFA.getD false then .error .MFARequired
  else if constraints.allowSubdelegation == some false && decide (1 < chainLength) then
    .error .SubdelegationNotAllowed
  else match constraints.timeWindows with
    | some ws =>
      if decide (0 < ws.length) then
        if ws.any (fun w => timeWindowAdmits w currentTime) then .ok ()
        else .error .OutsideTimeWindow
      else .ok ()
    | none => .ok ()

/-! ## Concrete instances used by witnesses and counterexamples -/

instance {ε α : Type} [DecidableEq ε] [DecidableEq α] : DecidableEq (Except ε α) := fun x y =>
  match x, y with
  | .ok a, .ok b => if h : a = b then .isTrue (by rw [h]) else .isFalse (by simp [h])
  | .error a, .error b => if h : a = b then .isTrue (by rw [h]) else .isFalse (by simp [h])
  | .ok _, .error _ => .isFalse (by simp)
  | .error _, .ok _ => .isFalse (by simp)

/-- A concrete executable signature scheme used to instantiate the
abstract ed25519 parameter in witnesses: the public key is the private
key, a signature is the public key followed by the message, and
verification checks exactly that shape. -/
def schemeK : SigScheme :=
  { pubOf := fun k => k
    sign := fun m k => k ++ m
    verify := fun s m p => s == p ++ m }

/-- Decimal digits of a natural number (fuel keeps it structural). -/
def natDigitsAux : Nat → Nat → List Char
  | 0, _ => []
  | fuel + 1, n =>
    if n < 10 then [hexDigit n] else natDigitsAux fuel (n / 10) ++ [hexDigit (n % 10)]

/-- Decimal digit string of a natural number. -/
def natDigits (n : Nat) : List Char := natDigitsAux (n + 1) n

/-- Characters of a list of ASCII byte values. -/
def bytesToChars (l : List Nat) : List Char := l.map Char.ofNat

/-- Join character lists with a separator character. -/
def joinChar (c : Char) : List (List Char) → List Char
  | [] => []
  | [x] => x
  | x :: xs => x ++ c :: joinChar c xs

/-- Witness header encoder: the only varying field is `kid`. -/
def encHeaderW (h : TokenHeader) : List Nat := asciiBytes h.kid.data

/-- Witness header decoder. -/
def decHeaderW (bs : List Nat) : Option TokenHeader :=
  some ⟨"EdDSA", "AAT", String.mk (bytesToChars bs)⟩

/-- Witness payload encoder: semicolon-separated fields, comma-separated
scopes (the witness values contain neither separator). -/
def encPayloadW (p : TokenPayload) : List Nat :=
  asciiBytes (p.iss.data ++ ';' :: p.sub.data ++ ';' :: p.aud.data ++ ';' ::
    natDigits p.iat ++ ';' :: natDigits p.exp ++ ';' :: p.nonce.data ++ ';' ::
    joinChar ',' (p.scope.map String.data) ++ ';' :: p.actSub.data)

/-- Witness payload decoder. -/
def decPayloadW (bs : List Nat) : Option TokenPayload :=
  match splitOnChar ';' (bytesToChars bs) with
  | [i, su, a, t1, t2, n, sc, act] =>
    some ⟨String.mk i, String.mk su, String.mk a, digitsToNat t1, digitsToNat t2,
      String.mk n, (if sc = [] then [] else (splitOnChar ',' sc).map String.mk),
      String.mk act⟩
  | _ => none

/-- Witness chain encoder; the witnesses embed the empty chain. -/
def encChainW (l : List DelegationTokenM) : List Nat := asciiBytes (natDigits l.length)

/-- Witness chain decoder, the partial inverse of `encChainW` at `[]`. -/
def decChainW (bs : List Nat) : Option (List DelegationTokenM) :=
  if bs = asciiBytes (natDigits 0) then some [] else none

/-- The witness segment codecs. -/
def codecW : Codecs := ⟨encHeaderW, decHeaderW, encPayloadW, decPayloadW, encChainW, decChainW⟩

/-- An identity over `schemeK` whose key byte `255` makes every signature
start with a byte that is not valid UTF-8. -/
def idFF : AgentIdentityM := ⟨[255], [255], publicKeyToDID [255], none⟩

/-- True exactly on `Except.ok` results. -/
def exOk {ε α : Type} : Except ε α → Bool
  | .ok _ => true
  | .error _ => false

/-- A 32-byte public-key value used by witnesses. -/
def pk32 : List Nat := List.range 32

/-- A well-formed identity over `schemeK` used by witnesses. -/
def idW : AgentIdentityM :=
  ⟨List.range 32, List.range 32, publicKeyToDID (List.range 32),
    some [("name", "TestAgent")]⟩

/-! ## Spec-side table for the duration claims -/

/-- The spec's unit multiplier table: s=1, m=60, h=3600, d=86400. -/
def unitMultiplier (u : Char) : Option Nat :=
  if u = 's' then some 1
  else if u = 'm' then some 60
  else if u = 'h' then some 3600
  else if u = 'd' then some 86400
  else none

/-! ## Concrete tokens for the token-layer witnesses -/

/-- A concrete token header. -/
def headerX : TokenHeader := ⟨"EdDSA", "AAT", "k"⟩

/-- A payload issued under the ASCII-keyed identity (private key `[65]`,
whose `schemeK` signatures are ASCII and survive the UTF-8 round trip),
issued at 1, expiring at 5. -/
def payloadA : TokenPayload :=
  ⟨publicKeyToDID [65], "did:web:alice.example.com", "https://api.example.com",
    1, 5, "n2", ["read"], publicKeyToDID [65]⟩

/-- Encoded header segment. -/
def hBA : List Char := b64encode (codecW.encHeader headerX)

/-- Encoded payload segment. -/
def pBA : List Char := b64encode (codecW.encPayload payloadA)

/-- Encoded empty-chain segment. -/
def dBA : List Char := b64encode (codecW.encChain [])

/-- A correctly computed signature segment over the first three segments. -/
def sBA : List Char :=
  b64encode (schemeK.sign (asciiBytes (hBA ++ '.' :: pBA ++ '.' :: dBA)) [65])

/-- A segment holding a wrong signature. -/
def sBad : List Char := b64encode (asciiBytes "bad".data)

/-- A payload issued under `idFF` (private key `[255]`). -/
def payloadF : TokenPayload :=
  ⟨publicKeyToDID [255], "did:web:alice.example.com", "https://api.example.com",
    1, 5, "n3", ["read"], publicKeyToDID [255]⟩

/-- Encoded `payloadF` segment. -/
def pBF : List Char := b64encode (codecW.encPayload payloadF)

/-- The ASCII-keyed identity: all its `schemeK` signatures are ASCII
byte lists, which the lossy UTF-8 round trip preserves. -/
def idA : AgentIdentityM := ⟨[65], [65], publicKeyToDID [65], none⟩

/-- A time window of the core `TimeWindow` shape covering every moment of
every day. -/
def fullWeekWindow : TimeWindowM :=
  { days := some ["mon", "tue", "wed", "thu", "fri", "sat", "sun"]
    hours := some "00:00-23:59"
    tz := some "UTC" }

/-- A core-created delegation constrained only by that all-covering
window. -/
def delegationTW : DelegationTokenM :=
  createDelegation
    ⟨"did:web:example.com", "did:agentauth:ed25519:test123", ["read"], none,
      none, none, some { timeWindows := some [fullWeekWindow] }, none⟩ "u1" 0

theorem splitOnCharCore_of_not_mem {sep : Char} {l : List Char} (h : sep ∉ l) :
    splitOnCharCore sep l = (l, []) := by
  induction l with
  | nil => rfl
  | cons c cs ih =>
    have hc : c ≠ sep := fun hcs => h (hcs ▸ List.mem_cons_self c cs)
    have hcs : sep ∉ cs := fun hm => h (List.mem_cons_of_mem c hm)
    simp [splitOnCharCore, hc, ih hcs]

theorem splitOnCharCore_append {sep : Char} {a : List Char} (b : List Char)
    (h : sep ∉ a) :
    splitOnCharCore sep (a ++ sep :: b) =
      (a, (splitOnCharCore sep b).1 :: (splitOnCharCore sep b).2) := by
  induction a with
  | nil => simp [splitOnCharCore]
  | cons c cs ih =>
    have hc : c ≠ sep := fun hcs => h (hcs ▸ List.mem_cons_self c cs)
    have hcs : sep ∉ cs := fun hm => h (List.mem_cons_of_mem c hm)
    simp [splitOnCharCore, hc, ih hcs]

theorem splitOnChar_of_not_mem {sep : Char} {l : List Char} (h : sep ∉ l) :
    splitOnChar sep l = [l] := by
  simp [splitOnChar, splitOnCharCore_of_not_mem h]

theorem splitOnChar_append {sep : Char} {a : List Char} (b : List Char)
    (h : sep ∉ a) :
    splitOnChar sep (a ++ sep :: b) = a :: splitOnChar sep b := by
  simp [splitOnChar, splitOnCharCore_append b h]

theorem charSextet_sextetChar : ∀ n < 64, charSextet (sextetChar n) = some n := by
  decide

theorem sextetChar_mem (n : Nat) : sextetChar n ∈ b64Alphabet := by
  unfold sextetChar
  by_cases h : n < b64Alphabet.length
  · exact List.getD_eq_getElem b64Alphabet 'A' h ▸ b64Alphabet.getElem_mem h
  · rw [List.getD_eq_default b64Alphabet 'A' (Nat.le_of_not_lt h)]
    decide

theorem not_mem_b64encode {c : Char} (hc : c ∉ b64Alphabet) :
    ∀ bs : List Nat, c ∉ b64encode bs := by
  intro bs
  induction bs using b64encode.induct with
  | case1 b0 b1 b2 rest ih =>
    simp only [b64encode, List.mem_cons, not_or]
    exact ⟨fun h => hc (h ▸ sextetChar_mem _), fun h => hc (h ▸ sextetChar_mem _),
      fun h => hc (h ▸ sextetChar_mem _), fun h => hc (h ▸ sextetChar_mem _), ih⟩
  | case2 b0 b1 =>
    simp only [b64encode, List.mem_cons, not_or]
    exact ⟨fun h => hc (h ▸ sextetChar_mem _), fun h => hc (h ▸ sextetChar_mem _),
      fun h => hc (h ▸ sextetChar_mem _), by simp⟩
  | case3 b0 =>
    simp only [b64encode, List.mem_cons, not_or]
    exact ⟨fun h => hc (h ▸ sextetChar_mem _), fun h => hc (h ▸ sextetChar_mem _), by simp⟩
  | case4 => simp [b64encode]

theorem dot_not_mem_b64encode (bs : List Nat) : '.' ∉ b64encode bs :=
  not_mem_b64encode (by decide) bs

theorem colon_not_mem_b64encode (bs : List Nat) : ':' ∉ b64encode bs :=
  not_mem_b64encode (by decide) bs

/-- Round trip: decoding an encoded byte list recovers it exactly, for
byte values below 256. -/
theorem b64decode_b64encode :
    ∀ bs : List Nat, (∀ b ∈ bs, b < 256) → b64decode (b64encode bs) = bs := by
  intro bs
  induction bs using b64encode.induct with
  | case1 b0 b1 b2 rest ih =>
    intro h
    have h0 : b0 < 256 := h b0 (by simp)
    have h1 : b1 < 256 := h b1 (by simp)
    have h2 : b2 < 256 := h b2 (by simp)
    have hrest : ∀ b ∈ rest, b < 256 := fun b hb => h b (by simp [hb])
    simp only [b64encode, b64decode, List.filterMap_cons,
      charSextet_sextetChar _ (by omega : b0 / 4 < 64),
      charSextet_sextetChar _ (by omega : b0 % 4 * 16 + b1 / 16 < 64),
      charSextet_sextetChar _ (by omega : b1 % 16 * 4 + b2 / 64 < 64),
      charSextet_sextetChar _ (by omega : b2 % 64 < 64)]
    have := ih hrest
    simp only [b64decode] at this
    simp only [b64decodeSextets, this, List.cons.injEq, and_true]
    omega
  | case2 b0 b1 =>
    intro h
    have h0 : b0 < 256 := h b0 (by simp)
    have h1 : b1 < 256 := h b1 (by simp)
    simp only [b64encode, b64decode, List.filterMap_cons,
      charSextet_sextetChar _ (by omega : b0 / 4 < 64),
      charSextet_sextetChar _ (by omega : b0 % 4 * 16 + b1 / 16 < 64),
      charSextet_sextetChar _ (by omega : b1 % 16 * 4 < 64), List.filterMap_nil]
    simp only [b64decodeSextets, List.cons.injEq, and_true]
    omega
  | case3 b0 =>
    intro h
    have h0 : b0 < 256 := h b0 (by simp)
    simp only [b64encode, b64decode, List.filterMap_cons,
      charSextet_sextetChar _ (by omega : b0 / 4 < 64),
      charSextet_sextetChar _ (by omega : b0 % 4 * 16 < 64), List.filterMap_nil]
    simp only [b64decodeSextets, List.cons.injEq, and_true]
    omega
  | case4 => intro _; rfl

theorem utf8DecodeAux_ascii :
    ∀ (fuel : Nat) (l : List Nat), l.length ≤ fuel → (∀ b ∈ l, b < 128) →
      utf8DecodeAux fuel l = l := by
  intro fuel
  induction fuel with
  | zero =>
    intro l hl _
    match l with
    | [] => rfl
  | succ f ih =>
    intro l hl h
    match l with
    | [] => rfl
    | b :: rest =>
      have hb : b < 128 := h b (by simp)
      have hrest : ∀ x ∈ rest, x < 128 := fun x hx => h x (by simp [hx])
      simp only [utf8DecodeAux, if_pos hb]
      exact congrArg (b :: ·) (ih rest (by simpa using hl) hrest)

/-- On ASCII byte lists the lossy UTF-8 round trip is the identity. -/
theorem utf8RoundTrip_ascii :
    ∀ l : List Nat, (∀ b ∈ l, b < 128) → utf8RoundTrip l = l := by
  intro l h
  rw [utf8RoundTrip, utf8DecodeCps, utf8DecodeAux_ascii l.length l le_rfl h]
  induction l with
  | nil => rfl
  | cons b rest ih =>
    have hb : b < 128 := h b (by simp)
    have hrest : ∀ x ∈ rest, x < 128 := fun x hx => h x (by simp [hx])
    simp only [utf8EncodeCps, List.map_cons, List.flatten_cons] at ih ⊢
    rw [ih hrest]
    simp [utf8EncodeCp, hb]

theorem hexVal_hexDigit : ∀ n < 16, hexVal (hexDigit n) = some n := by decide

/-- Round trip: lenient hex decoding inverts hex encoding on byte lists. -/
theorem hexDecodeLenient_hexEncode :
    ∀ bs : List Nat, (∀ b ∈ bs, b < 256) → hexDecodeLenient (hexEncode bs) = bs := by
  intro bs
  induction bs with
  | nil => intro _; rfl
  | cons b rest ih =>
    intro h
    have hb : b < 256 := h b (by simp)
    have hrest : ∀ x ∈ rest, x < 256 := fun x hx => h x (by simp [hx])
    simp only [hexEncode, hexDecodeLenient,
      hexVal_hexDigit _ (by omega : b / 16 < 16),
      hexVal_hexDigit _ (by omega : b % 16 < 16), ih hrest, List.cons.injEq, and_true]
    omega

theorem did_prefix_expand (rest : List Char) :
    "did:agentauth:ed25519:".data ++ rest =
      "did".data ++ ':' :: ("agentauth".data ++ ':' :: ("ed25519".data ++ ':' :: rest)) := rfl

theorem splitOnChar_did (rest : List Char) (h : ':' ∉ rest) :
    splitOnChar ':' ("did:agentauth:ed25519:".data ++ rest) =
      ["did".data, "agentauth".data, "ed25519".data, rest] := by
  rw [did_prefix_expand,
    splitOnChar_append _ (by decide),
    splitOnChar_append _ (by decide),
    splitOnChar_append _ (by decide),
    splitOnChar_of_not_mem h]

/-- `schemeK` verifies its own signatures. -/
theorem schemeK_correct (m k : List Nat) :
    schemeK.verify (schemeK.sign m k) m (schemeK.pubOf k) = true := by
  simp [schemeK]

/-! ## Claim theorems: identity layer -/

/-- C5: for every 32-byte Ed25519 public key (as produced by identity
generation), decoding the DID produced by `publicKeyToDID` recovers the
public key byte-for-byte. -/
theorem c5_did_roundtrip (pk : List Nat) (hlen : pk.length = 32)
    (hbytes : ∀ b ∈ pk, b < 256) :
    didToPublicKey (publicKeyToDID pk) = some pk := by
  unfold publicKeyToDID didToPublicKey
  rw [show (String.mk ("did:agentauth:ed25519:".data ++ b64encode pk)).data
      = "did:agentauth:ed25519:".data ++ b64encode pk from rfl]
  rw [splitOnChar_did _ (colon_not_mem_b64encode pk)]
  simp [b64decode_b64encode pk hbytes]

/-- Witness for C5 at a concrete 32-byte key. -/
theorem c5_did_roundtrip_w : didToPublicKey (publicKeyToDID pk32) = some pk32 :=
  c5_did_roundtrip pk32 (by decide) (by decide)

/-- C6 (amended): `fromPrivateKey` succeeds exactly when Node's lenient
hex decoding of the input yields 32 bytes, and otherwise fails with
`InvalidKeyFormat`; validity of the hex string itself is irrelevant
beyond what survives the lenient decoding. -/
theorem c6_fromPrivateKey_ok_iff (S : SigScheme) (s : List Char)
    (md : Option AgentMetadata) :
    (exOk (fromPrivateKey S s md) = true ↔ (hexDecodeLenient s).length = 32) ∧
    (fromPrivateKey S s md = .error .InvalidKeyFormat ↔
      (hexDecodeLenient s).length ≠ 32) := by
  by_cases h : (hexDecodeLenient s).length = 32 <;> simp [fromPrivateKey, h, exOk]

/-- C6 counterexample: a string that is not valid hex (it contains `z`)
on which `fromPrivateKey` nevertheless succeeds, because Node's hex
decoder silently stops at the first invalid pair and the 64 leading valid
digits already decode to 32 bytes. -/
theorem c6_fromPrivateKey_accepts_nonhex :
    hexVal 'z' = none ∧ 'z' ∈ List.replicate 64 'a' ++ ['z', 'z'] ∧
    exOk (fromPrivateKey schemeK (List.replicate 64 'a' ++ ['z', 'z']) none) = true := by
  decide

/-- C9 (amended): serializing an identity and loading the result restores
the identity exactly — DID, private key, public key and metadata (hence
identical signing behaviour); the hypotheses state the constructor
invariants of every identity the module creates. -/
theorem c9_toJSON_fromJSON_identity (S : SigScheme) (x : AgentIdentityM) (t : Nat)
    (hlen : x.privateKey.length = 32) (hbytes : ∀ b ∈ x.privateKey, b < 256)
    (hpub : x.publicKey = S.pubOf x.privateKey)
    (hdid : x.did = publicKeyToDID x.publicKey) :
    fromJSON S (toJSON x t) = .ok x := by
  simp only [fromJSON, toJSON, fromPrivateKey, exportPrivateKey,
    hexDecodeLenient_hexEncode x.privateKey hbytes, if_pos hlen]
  rw [← hpub, ← hdid]

/-- Witness for C9 at a concrete identity and export time. -/
theorem c9_toJSON_fromJSON_identity_w : fromJSON schemeK (toJSON idW 7) = .ok idW :=
  c9_toJSON_fromJSON_identity schemeK idW 7 (by decide) (by decide) rfl rfl

/-- C9 counterexample: the `created` timestamp is not a round-tripped
component — it records the moment of each export, so re-serializing the
reloaded identity at a later instant yields a different record. -/
theorem c9_created_not_roundtripped :
    (toJSON idW 0).created = 0 ∧
    Except.map (fun y => (toJSON y 1).created) (fromJSON schemeK (toJSON idW 0)) =
      .ok 1 ∧
    Except.map (fun y => toJSON y 1) (fromJSON schemeK (toJSON idW 0)) ≠
      .ok (toJSON idW 0) := by
  decide

theorem takeWhile_append_singleton {p : Char → Bool} {ds : List Char} {u : Char}
    (hds : ∀ c ∈ ds, p c = true) (hu : p u = false) :
    (ds ++ [u]).takeWhile p = ds ∧ (ds ++ [u]).dropWhile p = [u] := by
  induction ds with
  | nil => simp [List.takeWhile, List.dropWhile, hu]
  | cons c cs ih =>
    have hc : p c = true := hds c (by simp)
    have hcs : ∀ x ∈ cs, p x = true := fun x hx => hds x (by simp [hx])
    obtain ⟨h1, h2⟩ := ih hcs
    simp [List.takeWhile_cons, List.dropWhile_cons, hc, h1, h2]

theorem unitMultiplier_cases {u : Char} {k : Nat} (h : unitMultiplier u = some k) :
    (u = 's' ∧ k = 1) ∨ (u = 'm' ∧ k = 60) ∨ (u = 'h' ∧ k = 3600) ∨
      (u = 'd' ∧ k = 86400) := by
  unfold unitMultiplier at h
  split_ifs at h with h1 h2 h3 h4 <;> simp_all

theorem unitMultiplier_not_digit {u : Char} {k : Nat}
    (h : unitMultiplier u = some k) : u.isDigit = false := by
  rcases unitMultiplier_cases h with ⟨h, _⟩ | ⟨h, _⟩ | ⟨h, _⟩ | ⟨h, _⟩ <;>
    rw [h] <;> decide

theorem parseExpiry_of_shape {ds : List Char} {u : Char} {k : Nat}
    (hne : ds ≠ []) (hdig : ∀ c ∈ ds, c.isDigit = true)
    (hk : unitMultiplier u = some k) :
    parseExpiry (ds ++ [u]) = .ok (digitsToNat ds * k) := by
  obtain ⟨ht, hd⟩ := takeWhile_append_singleton hdig (unitMultiplier_not_digit hk)
  rcases unitMultiplier_cases hk with ⟨h, hk1⟩ | ⟨h, hk1⟩ | ⟨h, hk1⟩ | ⟨h, hk1⟩ <;>
    subst h <;> subst hk1 <;> simp [parseExpiry, hd, ht, hne]

/-- C4 (amended): `parseExpiry` succeeds exactly on a non-empty digit
string followed by one unit character in s/m/h/d, returning the decimal
count (zero included) times the unit multiplier, and fails with
`InvalidDurationFormat` on every other input; a negative count is
impossible because `-` is not a digit. -/
theorem c4_parseExpiry_characterization (s : List Char) (r : Nat) :
    (parseExpiry s = .ok r ↔
      ∃ ds u k, s = ds ++ [u] ∧ ds ≠ [] ∧ (∀ c ∈ ds, c.isDigit = true) ∧
        unitMultiplier u = some k ∧ r = digitsToNat ds * k) ∧
    (parseExpiry s = .error .InvalidDurationFormat ↔
      ¬ ∃ ds u k, s = ds ++ [u] ∧ ds ≠ [] ∧ (∀ c ∈ ds, c.isDigit = true) ∧
        unitMultiplier u = some k) := by
  have hsplit : s = s.takeWhile Char.isDigit ++ s.dropWhile Char.isDigit :=
    (List.takeWhile_append_dropWhile (p := Char.isDigit) (l := s)).symm
  have hdig : ∀ c ∈ s.takeWhile Char.isDigit, c.isDigit = true :=
    fun c hc => List.mem_takeWhile_imp hc
  constructor
  · constructor
    · intro h
      unfold parseExpiry at h
      cases hdw : s.dropWhile Char.isDigit with
      | nil => rw [hdw] at h; exact absurd h (by simp)
      | cons u tl =>
        cases tl with
        | nil =>
          rw [hdw] at h
          simp only [] at h
          by_cases hne : s.takeWhile Char.isDigit = []
          · rw [if_pos hne] at h; exact absurd h (by simp)
          · rw [if_neg hne] at h
            have hs : s = s.takeWhile Char.isDigit ++ [u] := by
              conv_lhs => rw [hsplit]
              rw [hdw]
            split_ifs at h with h1 h2 h3 h4
            · exact ⟨_, u, 1, hs, hne, hdig, by simp [unitMultiplier, h1],
                by simpa using h.symm⟩
            · exact ⟨_, u, 60, hs, hne, hdig, by simp [unitMultiplier, h1, h2],
                by simpa using h.symm⟩
            · exact ⟨_, u, 3600, hs, hne, hdig, by simp [unitMultiplier, h1, h2, h3],
                by simpa using h.symm⟩
            · exact ⟨_, u, 86400, hs, hne, hdig,
                by simp [unitMultiplier, h1, h2, h3, h4], by simpa using h.symm⟩
        | cons v tl2 => rw [hdw] at h; exact absurd h (by simp)
    · rintro ⟨ds, u, k, hs, hne, hdigs, hk, hr⟩
      rw [hr, hs]
      exact parseExpiry_of_shape hne hdigs hk
  · constructor
    · intro h hex
      obtain ⟨ds, u, k, hs, hne, hdigs, hk⟩ := hex
      rw [hs, parseExpiry_of_shape hne hdigs hk] at h
      exact absurd h (by simp)
    · intro hnex
      unfold parseExpiry
      cases hdw : s.dropWhile Char.isDigit with
      | nil => rfl
      | cons u tl =>
        cases tl with
        | nil =>
          simp only []
          by_cases hne : s.takeWhile Char.isDigit = []
          · rw [if_pos hne]
          · rw [if_neg hne]
            have hs : s = s.takeWhile Char.isDigit ++ [u] := by
              conv_lhs => rw [hsplit]
              rw [hdw]
            split_ifs with h1 h2 h3 h4
            · exact absurd ⟨_, u, 1, hs, hne, hdig, by simp [unitMultiplier, h1]⟩ hnex
            · exact absurd ⟨_, u, 60, hs, hne, hdig,
                by simp [unitMultiplier, h1, h2]⟩ hnex
            · exact absurd ⟨_, u, 3600, hs, hne, hdig,
                by simp [unitMultiplier, h1, h2, h3]⟩ hnex
            · exact absurd ⟨_, u, 86400, hs, hne, hdig,
                by simp [unitMultiplier, h1, h2, h3, h4]⟩ hnex
            · rfl
        | cons v tl2 => rfl

/-- C4 counterexample: the zero count `0s` matches the regex and is
accepted with value 0, not rejected as `InvalidDurationFormat`. -/
theorem c4_parseExpiry_accepts_zero :
    parseExpiry ['0', 's'] = .ok 0 ∧
    parseExpiry ['0', 's'] ≠ .error .InvalidDurationFormat := by
  decide

/-! ## Claim theorems: token verification -/

/-- Reduction of `verifyToken` on a token of the four-segment shape whose
segments are dot-free and decode successfully: only the ordered gates
remain. -/
theorem verifyToken_parsed (S : SigScheme) (C : Codecs) (now : Nat)
    (opts : VerifyOptionsM) (hB pB dB sB : List Char)
    (h1 : '.' ∉ hB) (h2 : '.' ∉ pB) (h3 : '.' ∉ dB) (h4 : '.' ∉ sB)
    (header : TokenHeader) (payload : TokenPayload) (chain : List DelegationTokenM)
    (pk : List Nat)
    (eH : C.decHeader (utf8RoundTrip (b64decode hB)) = some header)
    (eP : C.decPayload (utf8RoundTrip (b64decode pB)) = some payload)
    (eD : C.decChain (utf8RoundTrip (b64decode dB)) = some chain)
    (epk : didToPublicKey payload.iss = some pk) :
    verifyToken S C now opts (hB ++ '.' :: (pB ++ '.' :: (dB ++ '.' :: sB))) =
      (if S.verify (utf8RoundTrip (b64decode sB))
            (asciiBytes (hB ++ '.' :: pB ++ '.' :: dB)) pk = false then
        .error .InvalidSignature
      else if payload.exp < now then .error .TokenExpired
      else if audienceCheckFails opts.audience payload.aud then .error .AudienceMismatch
      else match opts.requiredScopes with
        | some req =>
          if req.all (fun sc => payload.scope.contains sc) = false then
            .error .InsufficientScope
          else .ok ⟨header, payload, chain, utf8RoundTrip (b64decode sB)⟩
        | none => .ok ⟨header, payload, chain, utf8RoundTrip (b64decode sB)⟩) := by
  unfold verifyToken
  rw [splitOnChar_append _ h1, splitOnChar_append _ h2, splitOnChar_append _ h3,
    splitOnChar_of_not_mem h4]
  dsimp only
  rw [eH, eP, eD]
  dsimp only
  rw [epk]

/-- C3: on any token whose four segments parse but whose signature does
not verify against the key recovered from `payload.iss`, `verify` fails
with `InvalidSignature` — never with `TokenExpired`, `AudienceMismatch`
or `InsufficientScope`, whatever the payload and options contain. -/
theorem c3_invalid_signature_first (S : SigScheme) (C : Codecs) (now : Nat)
    (opts : VerifyOptionsM) (hB pB dB sB : List Char)
    (h1 : '.' ∉ hB) (h2 : '.' ∉ pB) (h3 : '.' ∉ dB) (h4 : '.' ∉ sB)
    (header : TokenHeader) (payload : TokenPayload) (chain : List DelegationTokenM)
    (pk : List Nat)
    (eH : C.decHeader (utf8RoundTrip (b64decode hB)) = some header)
    (eP : C.decPayload (utf8RoundTrip (b64decode pB)) = some payload)
    (eD : C.decChain (utf8RoundTrip (b64decode dB)) = some chain)
    (epk : didToPublicKey payload.iss = some pk)
    (hsig : S.verify (utf8RoundTrip (b64decode sB))
        (asciiBytes (hB ++ '.' :: pB ++ '.' :: dB)) pk = false) :
    verifyToken S C now opts (hB ++ '.' :: (pB ++ '.' :: (dB ++ '.' :: sB))) =
      .error .InvalidSignature := by
  rw [verifyToken_parsed S C now opts hB pB dB sB h1 h2 h3 h4 header payload chain pk
    eH eP eD epk, if_pos hsig]

/-- C2 (amended): a token whose `exp` lies in the past never verifies:
with a valid signature it fails `TokenExpired`; with an invalid signature
the strictly earlier signature gate fails first with `InvalidSignature`. -/
theorem c2_expired_never_verifies (S : SigScheme) (C : Codecs) (now : Nat)
    (opts : VerifyOptionsM) (hB pB dB sB : List Char)
    (h1 : '.' ∉ hB) (h2 : '.' ∉ pB) (h3 : '.' ∉ dB) (h4 : '.' ∉ sB)
    (header : TokenHeader) (payload : TokenPayload) (chain : List DelegationTokenM)
    (pk : List Nat)
    (eH : C.decHeader (utf8RoundTrip (b64decode hB)) = some header)
    (eP : C.decPayload (utf8RoundTrip (b64decode pB)) = some payload)
    (eD : C.decChain (utf8RoundTrip (b64decode dB)) = some chain)
    (epk : didToPublicKey payload.iss = some pk)
    (hexp : payload.exp < now) :
    verifyToken S C now opts (hB ++ '.' :: (pB ++ '.' :: (dB ++ '.' :: sB))) =
      .error (if S.verify (utf8RoundTrip (b64decode sB))
          (asciiBytes (hB ++ '.' :: pB ++ '.' :: dB)) pk then
        .TokenExpired else .InvalidSignature) := by
  rw [verifyToken_parsed S C now opts hB pB dB sB h1 h2 h3 h4 header payload chain pk
    eH eP eD epk]
  cases hv : S.verify (utf8RoundTrip (b64decode sB))
      (asciiBytes (hB ++ '.' :: pB ++ '.' :: dB)) pk
  · simp [hv]
  · simp [hv, hexp]

/-- C7: on a token that passes the signature, expiry and audience gates,
`verify` with `requiredScopes := S` fails `InsufficientScope` exactly when
some required scope is missing from `payload.scope` (membership is exact
string equality), and returns the parsed token exactly when all are
present. -/
theorem c7_requiredScopes_iff (S : SigScheme) (C : Codecs) (now : Nat)
    (audOpt : Option String) (req : List String) (hB pB dB sB : List Char)
    (h1 : '.' ∉ hB) (h2 : '.' ∉ pB) (h3 : '.' ∉ dB) (h4 : '.' ∉ sB)
    (header : TokenHeader) (payload : TokenPayload) (chain : List DelegationTokenM)
    (pk : List Nat)
    (eH : C.decHeader (utf8RoundTrip (b64decode hB)) = some header)
    (eP : C.decPayload (utf8RoundTrip (b64decode pB)) = some payload)
    (eD : C.decChain (utf8RoundTrip (b64decode dB)) = some chain)
    (epk : didToPublicKey payload.iss = some pk)
    (hsig : S.verify (utf8RoundTrip (b64decode sB))
        (asciiBytes (hB ++ '.' :: pB ++ '.' :: dB)) pk = true)
    (hexp : ¬ payload.exp < now)
    (haud : audienceCheckFails audOpt payload.aud = false) :
    (verifyToken S C now ⟨audOpt, some req⟩
        (hB ++ '.' :: (pB ++ '.' :: (dB ++ '.' :: sB))) =
          .error .InsufficientScope ↔ ¬ ∀ sc ∈ req, sc ∈ payload.scope) ∧
    (verifyToken S C now ⟨audOpt, some req⟩
        (hB ++ '.' :: (pB ++ '.' :: (dB ++ '.' :: sB))) =
          .ok ⟨header, payload, chain, utf8RoundTrip (b64decode sB)⟩ ↔
        ∀ sc ∈ req, sc ∈ payload.scope) := by
  rw [verifyToken_parsed S C now ⟨audOpt, some req⟩ hB pB dB sB h1 h2 h3 h4
    header payload chain pk eH eP eD epk]
  simp only [hsig, if_neg hexp, haud, Bool.true_eq_false, if_false, if_neg]
  by_cases hall : req.all (fun sc => payload.scope.contains sc) = true
  · have : ∀ sc ∈ req, sc ∈ payload.scope := by
      simpa [List.all_eq_true, List.elem_iff] using hall
    simp [hall, this]
  · have : ¬ ∀ sc ∈ req, sc ∈ payload.scope := by
      simpa [List.all_eq_true, List.elem_iff] using hall
    simp [Bool.not_eq_true] at hall
    simp [hall, this]

/-- Witness for C2 at a concrete expired, validly signed token: the
result is exactly `TokenExpired`. -/
theorem c2_expired_never_verifies_w :
    verifyToken schemeK codecW 1000 {} (hBA ++ '.' :: (pBA ++ '.' :: (dBA ++ '.' :: sBA))) =
      .error .TokenExpired := by
  rw [c2_expired_never_verifies schemeK codecW 1000 {} hBA pBA dBA sBA
    (by decide) (by decide) (by decide) (by decide) headerX payloadA [] [65]
    (by decide) (by decide) (by decide) (by decide) (by decide)]
  decide

/-- C2 counterexample: an expired token bearing an invalid signature
fails with `InvalidSignature`, not `TokenExpired` — refuting the claim
that the expiry verdict is independent of signature validity. -/
theorem c2_expired_counterexample :
    payloadA.exp < 1000 ∧
    verifyToken schemeK codecW 1000 {} (hBA ++ '.' :: (pBA ++ '.' :: (dBA ++ '.' :: sBad))) =
      .error .InvalidSignature ∧
    verifyToken schemeK codecW 1000 {} (hBA ++ '.' :: (pBA ++ '.' :: (dBA ++ '.' :: sBad))) ≠
      .error .TokenExpired := by
  decide

/-- Witness for C3 at a concrete token whose signature is wrong and whose
payload is simultaneously expired, aimed at the wrong audience and
missing the required scope: the result is still `InvalidSignature`. -/
theorem c3_invalid_signature_first_w :
    verifyToken schemeK codecW 1000 ⟨some "https://other.example", some ["write"]⟩
      (hBA ++ '.' :: (pBF ++ '.' :: (dBA ++ '.' :: sBad))) = .error .InvalidSignature :=
  c3_invalid_signature_first schemeK codecW 1000
    ⟨some "https://other.example", some ["write"]⟩ hBA pBF dBA sBad
    (by decide) (by decide) (by decide) (by decide) headerX payloadF [] [255]
    (by decide) (by decide) (by decide) (by decide) (by decide)

/-- Witness for C7 at a concrete live, validly signed token lacking the
required scope `write`. -/
theorem c7_requiredScopes_iff_w :
    verifyToken schemeK codecW 3 ⟨none, some ["write"]⟩
      (hBA ++ '.' :: (pBA ++ '.' :: (dBA ++ '.' :: sBA))) =
        .error .InsufficientScope :=
  (c7_requiredScopes_iff schemeK codecW 3 none ["write"] hBA pBA dBA sBA
    (by decide) (by decide) (by decide) (by decide) headerX payloadA [] [65]
    (by decide) (by decide) (by decide) (by decide) (by decide) (by decide)
    (by decide)).1.mpr (by decide)

/-- C1: evaluating the code at the failing input.  A token freshly
produced by `create` under `idFF` is rejected by `verify` with
`InvalidSignature`, although nonce, codec and clock are all honest: the
signature bytes contain `255`, so the lossy UTF-8 round trip in
`verify`'s signature recovery mangles them.  (The companion theorem
`c1_create_verify_ok_when_ascii` shows the pipeline succeeds whenever the
signature bytes survive the round trip, isolating the mangling as the
sole obstruction.) -/
theorem c1_create_verify_rejects_fresh_token :
    Except.map (verifyToken schemeK codecW 1000 {})
      (createToken schemeK codecW
        ⟨idFF, "did:web:alice.example.com", "https://api.example.com", ["read"],
          none, none⟩ "n0" 1000)
      = .ok (.error .InvalidSignature) := by
  decide

/-- Companion to the C1 evaluation: under an identity whose signatures
happen to survive the UTF-8 round trip, `create` followed by `verify`
succeeds and the verified payload claims (`iss`, `sub`, `aud`, `iat`,
`exp`, `nonce`, `scope`, `act.sub`) equal the construction inputs —
isolating the signature mangling as the sole obstruction in C1. -/
theorem c1_create_verify_ok_when_ascii :
    Except.map (fun tok =>
        Except.map (fun v => v.payload) (verifyToken schemeK codecW 1000 {} tok))
      (createToken schemeK codecW
        ⟨idA, "did:web:alice.example.com", "https://api.example.com", ["read"],
          none, none⟩ "n0" 1000)
      = .ok (.ok ⟨idA.did, "did:web:alice.example.com", "https://api.example.com",
          1000, 4600, "n0", ["read"], idA.did⟩) := by
  decide

/-! ## Claim theorems: middleware constraint enforcement -/

/-- When the middleware's top-level time bounds are absent — as on every
core-created delegation — `enforceConstraints` can fail only through the
MFA, subdelegation or time-window gates, never with `DelegationExpired`
or `DelegationNotYetValid`. -/
theorem enforceConstraints_no_time_errors (d : DelegationTokenM)
    (h1 : d.expiresAtTop = none) (h2 : d.notBeforeTop = none)
    (len now : Nat) (cur : String) :
    enforceConstraints d len now cur ≠ .error .DelegationExpired ∧
    enforceConstraints d len now cur ≠ .error .DelegationNotYetValid := by
  constructor <;> intro h <;>
    (unfold enforceConstraints at h
     rw [h1, h2] at h
     by_cases hm : d.constraints.requireMFA.getD false = true
     · simp [hm] at h
     · by_cases hs :
         (d.constraints.allowSubdelegation == some false && decide (1 < len)) = true
       · simp [hm, hs] at h
       · cases hw : d.constraints.timeWindows with
         | none => simp [hm, hs, hw] at h
         | some ws =>
           by_cases h0 : 0 < ws.length
           · by_cases ha : ws.any (fun w => timeWindowAdmits w cur) = true
             · simp [hm, hs, hw, h0, ha] at h
             · simp [hm, hs, hw, h0, ha] at h
           · simp [hm, hs, hw, h0] at h)

/-- C10: the enforcement layer's time-bound checks read the top-level
`delegation.expiresAt` / `delegation.notBefore` properties, which
`createDelegation` never sets (it stores time bounds only as ISO strings
under `constraints.notAfter` / `constraints.notBefore`).  So no
core-created delegation — whatever its constraints, in particular with
`constraints.notAfter` in the past or `constraints.notBefore` in the
future — is ever rejected as `DelegationExpired` or
`DelegationNotYetValid`. -/
theorem c10_core_delegation_never_time_rejected (opts : CreateDelegationOptionsM)
    (uuid : String) (createdAt : Nat) (len now : Nat) (cur : String) :
    enforceConstraints (createDelegation opts uuid createdAt) len now cur ≠
        .error .DelegationExpired ∧
    enforceConstraints (createDelegation opts uuid createdAt) len now cur ≠
        .error .DelegationNotYetValid :=
  enforceConstraints_no_time_errors (createDelegation opts uuid createdAt)
    rfl rfl len now cur

/-- C8: evaluation at the failing input.  The middleware's window test
compares the current `HH:MM` string against `window.start` and
`window.end`, properties the core `TimeWindow` does not carry (it has
`days`, `hours`, `tz`), and a JavaScript comparison against `undefined`
is false; so a delegation whose single window covers the whole week is
rejected with `OutsideTimeWindow` at every time of day, every chain
length and every clock — instead of passing whenever the current local
time falls inside a window, as the spec states. -/
theorem c8_timeWindows_always_reject (len now : Nat) (cur : String) :
    enforceConstraints delegationTW len now cur = .error .OutsideTimeWindow := rfl

end AgentAuth
